import Mathlib

set_option maxRecDepth 8000

namespace Iso2God

/-!
Shallow embedding of the orchestration core of `gui.py`
(repository `iso2god-rs-GUI-FTP`): the debounced watcher and admission
queue (`IsoHandler.on_created`, `Iso2GodGUI.clear_queue`), the per-job
retry loop of `Iso2GodGUI.process_iso` (including the legacy-version
compatibility shim `is_legacy_version` and the thread-count flag), the
queue consumer `Iso2GodGUI.process_queue`, and the FTP upload stage
(`Iso2GodGUI.send_over_ftp`, `Iso2GodGUI.upload_folder`).
-/

/-! ### Compatibility shim and argument construction (gui.py lines 628-677) -/

/-- Python `thread_count.isdigit()` restricted to ASCII: nonempty and every
character a decimal digit. -/
def isDigitStr (s : String) : Bool := !s.data.isEmpty && s.data.all Char.isDigit

/-- Numeric value of a run of decimal digit characters, most significant
first (how Python `int` reads the captured version component). 48 is the
code point of the digit zero. -/
def digitsToNat (cs : List Char) : Nat := cs.foldl (fun a c => a * 10 + (c.toNat - 48)) 0

/-- Greedy split of a maximal run of digits at the front, returning the run
and the rest (the behaviour of a greedy regex digit group followed by a
literal that is not a digit). -/
def splitDigits (cs : List Char) : List Char × List Char :=
  (cs.takeWhile Char.isDigit, cs.dropWhile Char.isDigit)

/-- Parse `MAJOR.MINOR.PATCH` starting at the given characters: a nonempty
digit run, a dot, a nonempty digit run, a dot, a nonempty digit run. This is
the group of the regex in `is_legacy_version` (gui.py line 630), which
searches for a dash followed by this pattern; each digit run is greedy. -/
def parseTriple (cs : List Char) : Option (Nat × Nat × Nat) :=
  let (d1, r1) := splitDigits cs
  if d1.isEmpty then none else
  match r1 with
  | '.' :: r2 =>
    let (d2, r3) := splitDigits r2
    if d2.isEmpty then none else
    match r3 with
    | '.' :: r4 =>
      let (d3, _) := splitDigits r4
      if d3.isEmpty then none else
      some (digitsToNat d1, digitsToNat d2, digitsToNat d3)
    | _ => none
  | _ => none

/-- Leftmost match of the regex search for a dash followed by
`MAJOR.MINOR.PATCH`: try each start position from the left; at a dash try
to parse the triple right after it, otherwise move on. -/
def findVersion : List Char → Option (Nat × Nat × Nat)
  | [] => none
  | '-' :: rest =>
    match parseTriple rest with
    | some v => some v
    | none => findVersion rest
  | _ :: rest => findVersion rest

/-- Lexicographic comparison of version triples, as Python compares tuples
of ints with the less-or-equal operator. -/
def tupleLE (v w : Nat × Nat × Nat) : Bool :=
  decide (v.1 < w.1) ||
    (decide (v.1 = w.1) &&
      (decide (v.2.1 < w.2.1) ||
        (decide (v.2.1 = w.2.1) && decide (v.2.2 ≤ w.2.2))))

/-- gui.py lines 628-636: search the binary name for a dash followed by a
version triple; legacy iff the parsed triple is at most (1, 6, 0). When no
match is found the result is false. -/
def is_legacy_version (binaryName : String) : Bool :=
  match findVersion binaryName.data with
  | some v => tupleLE v (1, 6, 0)
  | none => false

/-- gui.py line 675: `add_j = thread_count.isdigit() and not legacy_mode`. -/
def addJ (threadCount : String) (legacyMode : Bool) : Bool :=
  isDigitStr threadCount && !legacyMode

/-- gui.py lines 669-677: the command line for one conversion attempt:
binary path, input path, output directory, then `--trim` when the trim
option is set, then the thread-count flag and value when `add_j` holds. -/
def buildCmd (iso2godPath isoPath outputDir : String) (trim : Bool)
    (threadCount : String) (legacyMode : Bool) : List String :=
  [iso2godPath, isoPath, outputDir]
    ++ (if trim then ["--trim"] else [])
    ++ (if addJ threadCount legacyMode then ["-j", threadCount] else [])

/-! ### The retry loop of process_iso (gui.py lines 621-803) -/

/-- Abstract outcome of one pass through the body of the retry loop, as
observed by the supervisor code: the pre-spawn file-open check raised a
permission error (lines 656-667); the process ran and exited with a return
code, the stderr reader possibly having seen the line rejecting the
thread-count flag (lines 697-709, 753-754); the liveness loop hit the
configured timeout (lines 731-740), recording whether the process was
still alive after the graceful terminate; a permission error was raised in
the attempt body (line 793); any other exception was raised (line 801). -/
inductive RunOutcome where
  | preLocked
  | finished (rc : Int) (stderrUnexpectedJ : Bool)
  | timedOut (aliveAfterTerminate : Bool)
  | raisedPermission
  | raisedOther
deriving DecidableEq, Repr

/-- Observable events of the retry loop: a spawned conversion attempt with
its attempt index and whether the thread-count flag was passed, a sleep of
the given number of seconds, the graceful terminate, the forced kill, the
deletion of the source file, and the dead-code immediate legacy retry
(gui.py lines 758-764). -/
inductive StepEv where
  | attempt (idx : Nat) (withJ : Bool)
  | sleepDelay (secs : Nat)
  | terminate
  | kill
  | deleteSource
  | legacyRetry
deriving DecidableEq, Repr

/-- Terminal result of the retry loop. `fellThrough` is the loop ending by
its counter reaching the cap without an explicit return. -/
inductive JobResult where
  | success
  | lockedSkip
  | fatalExit
  | timedOut
  | unexpectedSkip
  | fellThrough
deriving DecidableEq, Repr

/-- gui.py line 622: `max_retries = 3`. -/
def maxRetries : Nat := 3

/-- gui.py line 623: `retry_delay = 120` seconds. -/
def retryDelay : Nat := 120

/-- gui.py lines 697 and 707: the stderr reader sets the
`unexpected_j` flag only when legacy mode is on and the stderr line
contains the rejection substring for the thread-count flag. -/
def errorDetectedJ (legacyMode stderrUnexpectedJ : Bool) : Bool :=
  legacyMode && stderrUnexpectedJ

/-- The retry loop of `process_iso` (gui.py lines 654-803), driven by an
environment `outcomes` giving the observable outcome of each loop pass.
The two trailing arguments are the current attempt counter `current_try`
and the remaining fuel; the loop is entered with counter 0 and fuel
`maxRetries`, so fuel positive corresponds exactly to the loop guard
`current_try < max_retries`. Returns the event trace and the terminal
result. -/
def process_iso_loop (legacyMode : Bool) (threadCount : String)
    (deleteIso isProc : Bool) (outcomes : Nat → RunOutcome) :
    Nat → Nat → List StepEv × JobResult
  | _, 0 => ([], JobResult.fellThrough)
  | t, fuel+1 =>
    let aj := addJ threadCount legacyMode
    match outcomes t with
    | RunOutcome.preLocked =>
      if t < maxRetries - 1 then
        let r := process_iso_loop legacyMode threadCount deleteIso isProc outcomes (t+1) fuel
        (StepEv.sleepDelay retryDelay :: r.1, r.2)
      else ([], JobResult.lockedSkip)
    | RunOutcome.timedOut alive =>
      (StepEv.attempt t aj :: StepEv.terminate ::
        (if alive then [StepEv.kill] else []), JobResult.timedOut)
    | RunOutcome.finished rc sawJ =>
      if legacyMode && errorDetectedJ legacyMode sawJ && aj then
        let r := process_iso_loop legacyMode threadCount deleteIso isProc outcomes (t+1) fuel
        (StepEv.attempt t aj :: StepEv.legacyRetry :: r.1, r.2)
      else if rc == 0 then
        (StepEv.attempt t aj ::
          (if deleteIso && isProc then [StepEv.deleteSource] else []), JobResult.success)
      else if t < maxRetries - 1 then
        let r := process_iso_loop legacyMode threadCount deleteIso isProc outcomes (t+1) fuel
        (StepEv.attempt t aj :: StepEv.sleepDelay retryDelay :: r.1, r.2)
      else ([StepEv.attempt t aj], JobResult.fatalExit)
    | RunOutcome.raisedPermission =>
      if t < maxRetries - 1 then
        let r := process_iso_loop legacyMode threadCount deleteIso isProc outcomes (t+1) fuel
        (StepEv.sleepDelay retryDelay :: r.1, r.2)
      else ([], JobResult.lockedSkip)
    | RunOutcome.raisedOther => ([], JobResult.unexpectedSkip)

/-- gui.py lines 680-681: the timeout in seconds is minutes times 60 when
the configured minutes are positive, otherwise disabled. -/
def timeoutSecondsOf (timeoutMinutes : ℚ) : Option ℚ :=
  if 0 < timeoutMinutes then some (timeoutMinutes * 60) else none

/-- gui.py line 734: the timeout branch fires when a timeout is configured
and the elapsed time strictly exceeds it. -/
def timeoutFires (timeoutSeconds : Option ℚ) (elapsed : ℚ) : Bool :=
  match timeoutSeconds with
  | none => false
  | some s => decide (s < elapsed)

/-! ### Watcher, admission queue and in-flight set (gui.py lines 69-138, 596-619) -/

/-- Python `str.lower` on ASCII strings, character by character. -/
def strLower (s : String) : String := ⟨s.data.map Char.toLower⟩

/-- Python `str.endswith` as a suffix test on the character lists. -/
def strEndsWith (s suffix : String) : Bool := suffix.data.isSuffixOf s.data

/-- Joint state of the admission queue (`iso_queue`, a FIFO), the in-flight
set (`IsoHandler.processing`), the debounce table
(`IsoHandler.last_event_time`, keyed by path), and the game-title display
(`game_title_var`). Times are modelled as rationals. -/
structure SysState where
  queue : List String
  processing : Finset String
  lastEventTime : List (String × ℚ)
  title : String
deriving DecidableEq

/-- Assignment into the debounce table: the new binding shadows and drops
any previous binding for the same path. -/
def setTime (m : List (String × ℚ)) (p : String) (t : ℚ) : List (String × ℚ) :=
  (p, t) :: m.filter (fun e => !(e.1 == p))

/-- gui.py lines 94-98: record the sighting time in the debounce table,
then, only when the path is not already in-flight, append it to the queue
and add it to the in-flight set. -/
def admitPath (s : SysState) (path : String) (now : ℚ) : SysState :=
  let s1 := { s with lastEventTime := setTime s.lastEventTime path now }
  if path ∈ s1.processing then s1
  else { s1 with queue := s1.queue ++ [path],
                 processing := insert path s1.processing }

/-- gui.py lines 85-98 (`IsoHandler.on_created`): ignore directories and
paths whose lowercased form does not end in `.iso`; drop the sighting when
the path was last seen less than the scan delay ago (leaving the whole
state untouched); otherwise record the time and evaluate admission. -/
def on_created (scanDelay : ℚ) (s : SysState) (path : String)
    (isDirectory : Bool) (now : ℚ) : SysState :=
  if !isDirectory && strEndsWith (strLower path) ".iso" then
    match s.lastEventTime.lookup path with
    | some t => if now - t < scanDelay then s else admitPath s path now
    | none => admitPath s path now
  else s

/-- gui.py lines 596-602 (`clear_queue`): drain the queue destructively;
the in-flight set and the debounce table are untouched. -/
def clear_queue (s : SysState) : SysState := { s with queue := [] }

/-- gui.py lines 804-809, the cleanup phase of the finally block of
`process_iso`: reset the game-title display to "None" and discharge the
in-flight entry of the processed path when present. -/
def jobCleanup (path : String) (s : SysState) : SysState :=
  { s with title := "None", processing := s.processing.erase path }

/-- Events of the orchestration core that touch the shared state: a watcher
sighting, a press of the clear-queue button, and the coordinator pulling
and fully processing the next queued item (ending in its cleanup phase). -/
inductive SysEv where
  | sighting (path : String) (isDirectory : Bool) (now : ℚ)
  | clearQueueEv
  | procNext
deriving DecidableEq

/-- One step of the orchestration core. -/
def sysStep (scanDelay : ℚ) (s : SysState) : SysEv → SysState
  | SysEv.sighting p d t => on_created scanDelay s p d t
  | SysEv.clearQueueEv => clear_queue s
  | SysEv.procNext =>
    match s.queue with
    | [] => s
    | h :: rest => jobCleanup h { s with queue := rest }

/-- Iterated steps of the orchestration core. -/
def sysRun (scanDelay : ℚ) : SysState → List SysEv → SysState
  | s, [] => s
  | s, e :: es => sysRun scanDelay (sysStep scanDelay s e) es

/-- The uniqueness invariant of the admission queue: no duplicates, and
every queued path is in the in-flight set. -/
def QueueInv (s : SysState) : Prop :=
  s.queue.Nodup ∧ ∀ p ∈ s.queue, p ∈ s.processing

/-! ### Coordinator (gui.py lines 604-620 and the shape of process_iso) -/

/-- POSIX `os.path.basename`: the part of the path after the last slash. -/
def basenameOf (p : String) : String :=
  ⟨((p.data.reverse.takeWhile (fun c => !(c == '/'))).reverse)⟩

/-- Stem of `os.path.splitext` on a basename: cut at the last dot provided
some character before that dot is not itself a dot; otherwise keep the
whole name. -/
def splitextStem (nm : String) : String :=
  match nm.data.reverse.dropWhile (fun c => !(c == '.')) with
  | [] => nm
  | _ :: rest =>
    if rest.reverse.any (fun c => !(c == '.')) then ⟨rest.reverse⟩ else nm

/-- gui.py lines 640-641: the displayed game title of a source path. -/
def gameTitleOf (isoPath : String) : String := splitextStem (basenameOf isoPath)

/-- Per-job summary produced by one `process_iso` call: the processed path,
the event trace and terminal result of the retry loop, whether the queue
item was acknowledged, and whether the FTP upload step fired. -/
structure JobReport where
  path : String
  events : List StepEv
  result : JobResult
  acked : Bool
  uploadFired : Bool
deriving DecidableEq, Repr

/-- gui.py lines 608-614: capture the queue size as the total, compute the
1-based current index as the total minus the queue size plus one (the two
reads coincide in the single-consumer model), then pop the head. -/
def dequeueIdx (s : SysState) : Option (String × Nat × Nat × SysState) :=
  match s.queue with
  | [] => none
  | h :: rest =>
    let total := (h :: rest).length
    let idx := total - (h :: rest).length + 1
    some (h, idx, total, { s with queue := rest })

/-- gui.py lines 621-820: one full `process_iso` call on a dequeued path:
set the game-title display, run the retry loop, then the finally block:
reset the title, discharge the in-flight entry, acknowledge the queue
item, and fire the FTP upload exactly when FTP is enabled and the captured
index equals the captured total (lines 810-818). -/
def process_iso (path : String) (legacyMode : Bool) (threadCount : String)
    (deleteIso isProc useFtp : Bool) (outcomes : Nat → RunOutcome)
    (currentIndex totalCount : Nat) (s : SysState) : JobReport × SysState :=
  let sStart := { s with title := gameTitleOf path }
  let r := process_iso_loop legacyMode threadCount deleteIso isProc outcomes 0 maxRetries
  (⟨path, r.1, r.2, true, useFtp && (currentIndex == totalCount)⟩,
    jobCleanup path sStart)

/-- gui.py lines 604-619 (`process_queue`), sequential single-consumer
semantics: repeatedly dequeue with index bookkeeping and run `process_iso`
to completion, collecting the per-job reports; `outcomesFor` gives the
attempt outcomes of each path. Fuel bounds the number of pulls. -/
def process_queue (legacyMode : Bool) (threadCount : String)
    (deleteIso isProc useFtp : Bool) (outcomesFor : String → Nat → RunOutcome) :
    Nat → SysState → List JobReport × SysState
  | 0, s => ([], s)
  | fuel+1, s =>
    match dequeueIdx s with
    | none => ([], s)
    | some (p, idx, total, s1) =>
      let pr := process_iso p legacyMode threadCount deleteIso isProc useFtp
        (outcomesFor p) idx total s1
      let rest := process_queue legacyMode threadCount deleteIso isProc useFtp
        outcomesFor fuel pr.2
      (pr.1 :: rest.1, rest.2)

/-! ### Upload stage (gui.py lines 446-488) -/

/-- A local directory tree entry, as listed by `os.listdir` in order. -/
inductive FSEntry where
  | file (nm : String)
  | dir (nm : String) (entries : List FSEntry)

/-- Commands issued on the FTP session. -/
inductive FtpOp where
  | connect (host : String) (port : Nat)
  | login (user pw : String)
  | mkd (d : String)
  | cwd (d : String)
  | stor (nm : String)
deriving DecidableEq, Repr

mutual
/-- gui.py lines 465-480 (`upload_folder`): make the remote directory
(directory-already-exists errors swallowed), change into it, then walk the
local entries in order: recurse into subdirectories followed by a change
back up, and store plain files. -/
def upload_folder (entries : List FSEntry) (remoteDir : String) : List FtpOp :=
  FtpOp.mkd remoteDir :: FtpOp.cwd remoteDir :: uploadEntries entries
/-- The loop body of `upload_folder` over the listed entries. -/
def uploadEntries : List FSEntry → List FtpOp
  | [] => []
  | FSEntry.file nm :: rest => FtpOp.stor nm :: uploadEntries rest
  | FSEntry.dir nm es :: rest =>
    upload_folder es nm ++ (FtpOp.cwd ".." :: uploadEntries rest)
end

/-- Python `int` on the nonnegative decimal strings the port field holds;
other strings raise, modelled as none. -/
def digitStrVal (s : String) : Option Nat :=
  if isDigitStr s then some (digitsToNat s.data) else none

/-- gui.py line 483: the port argument of the connect call: 21 when the
field still holds its placeholder text, otherwise the parsed field. -/
def connectPort (portField : String) : Option Nat :=
  if portField = "Port (default: 21)" then some 21 else digitStrVal portField

/-- gui.py line 486: the remote root folder. -/
def remoteRoot (drvField : String) : String :=
  (if drvField = "Drive Folder (default: Hdd1)" then "Hdd1" else drvField)
    ++ "/Content/0000000000000000"

/-- gui.py lines 482-488 (`send_over_ftp`): connect with the literal host
string "192.168.1.28" written in the source and the configured port, log
in with the configured user and password, then mirror the output tree into
the remote root. The configured IP field is accepted but never read. -/
def send_over_ftp (ipField portField user pw drvField : String)
    (outputTree : List FSEntry) : Option (List FtpOp) :=
  match connectPort portField with
  | none => none
  | some port =>
    some (FtpOp.connect "192.168.1.28" port :: FtpOp.login user pw ::
      upload_folder outputTree (remoteRoot drvField))

/-! ### Helper lemmas about the retry loop -/

/-- The guard of the immediate legacy retry branch (gui.py line 759)
conjoins `legacy_mode` with `add_j`, but `add_j` (line 675) conjoins the
negation of `legacy_mode`, so the guard can never hold. -/
theorem legacy_branch_false (legacyMode sawJ : Bool) (tc : String) :
    (legacyMode && errorDetectedJ legacyMode sawJ && addJ tc legacyMode) = false := by
  cases legacyMode <;> simp [errorDetectedJ, addJ]

/-- The immediate legacy retry event never occurs in any trace of the
retry loop. -/
theorem legacyRetry_not_mem (legacyMode : Bool) (tc : String) (d p : Bool)
    (outcomes : Nat → RunOutcome) :
    ∀ fuel t, StepEv.legacyRetry ∉ (process_iso_loop legacyMode tc d p outcomes t fuel).1 := by
  intro fuel
  induction fuel with
  | zero => intro t; simp [process_iso_loop]
  | succ n ih =>
    intro t
    rcases houtcome : outcomes t with _ | ⟨rc, sawJ⟩ | alive | _ | _
    · by_cases ht : t < maxRetries - 1 <;> simp [process_iso_loop, houtcome, ht, ih]
    · by_cases hrc : rc = 0
      · subst hrc
        by_cases hdp : (d && p) = true <;>
          simp [process_iso_loop, houtcome, legacy_branch_false, hdp, ih]
      · have hcb : (rc == 0) = false := by simpa using hrc
        by_cases ht : t < maxRetries - 1 <;>
          simp [process_iso_loop, houtcome, legacy_branch_false, hcb, ht, ih]
    · cases alive <;> simp [process_iso_loop, houtcome]
    · by_cases ht : t < maxRetries - 1 <;> simp [process_iso_loop, houtcome, ht, ih]
    · simp [process_iso_loop, houtcome]

/-- Trace of the retry loop when one pass ends in an exit with nonzero
return code and no legacy rejection, for an attempt index below the cap:
one attempt, the fixed delay, then the loop re-enters with the counter
bumped. -/
theorem loop_step_nonzero (legacyMode : Bool) (tc : String) (d p : Bool)
    (outcomes : Nat → RunOutcome) (t fuel : Nat) (c : Int) (sawJ : Bool)
    (hout : outcomes t = RunOutcome.finished c sawJ) (hc : c ≠ 0)
    (ht : t < maxRetries - 1) :
    process_iso_loop legacyMode tc d p outcomes t (fuel+1)
      = (StepEv.attempt t (addJ tc legacyMode) :: StepEv.sleepDelay retryDelay ::
          (process_iso_loop legacyMode tc d p outcomes (t+1) fuel).1,
         (process_iso_loop legacyMode tc d p outcomes (t+1) fuel).2) := by
  have hcb : (c == 0) = false := by simpa using hc
  simp [process_iso_loop, hout, legacy_branch_false, hcb, ht]

/-- Trace of the retry loop when the pass at the attempt cap ends in a
nonzero exit: the job is abandoned as a fatal failure. -/
theorem loop_last_nonzero (legacyMode : Bool) (tc : String) (d p : Bool)
    (outcomes : Nat → RunOutcome) (fuel : Nat) (c : Int) (sawJ : Bool)
    (hout : outcomes 2 = RunOutcome.finished c sawJ) (hc : c ≠ 0) :
    process_iso_loop legacyMode tc d p outcomes 2 (fuel+1)
      = ([StepEv.attempt 2 (addJ tc legacyMode)], JobResult.fatalExit) := by
  have hcb : (c == 0) = false := by simpa using hc
  simp [process_iso_loop, hout, legacy_branch_false, hcb, maxRetries]

/-- Full trace of the retry loop when every pass exits with a nonzero
return code: exactly three attempts separated by two fixed delays, ending
in a fatal failure. -/
theorem process_iso_loop_all_nonzero (legacyMode : Bool) (tc : String) (d p : Bool)
    (rc : Nat → Int) (h : ∀ n, rc n ≠ 0) :
    process_iso_loop legacyMode tc d p (fun n => RunOutcome.finished (rc n) false) 0 3
      = ([StepEv.attempt 0 (addJ tc legacyMode), StepEv.sleepDelay retryDelay,
          StepEv.attempt 1 (addJ tc legacyMode), StepEv.sleepDelay retryDelay,
          StepEv.attempt 2 (addJ tc legacyMode)], JobResult.fatalExit) := by
  have e0 := loop_step_nonzero legacyMode tc d p
    (fun n => RunOutcome.finished (rc n) false) 0 2 (rc 0) false rfl (h 0) (by decide)
  have e1 := loop_step_nonzero legacyMode tc d p
    (fun n => RunOutcome.finished (rc n) false) 1 1 (rc 1) false rfl (h 1) (by decide)
  have e2 := loop_last_nonzero legacyMode tc d p
    (fun n => RunOutcome.finished (rc n) false) 0 (rc 2) false rfl (h 2)
  rw [show (3:Nat) = 2+1 from rfl, e0, show (2:Nat) = 1+1 from rfl, e1,
    show (1:Nat) = 0+1 from rfl, e2]

/-- Trace of the retry loop when the first pass hits the timeout: one
attempt, the graceful terminate, the kill when the process is still alive,
and no retry. -/
theorem process_iso_loop_timeout (legacyMode : Bool) (tc : String) (d p : Bool)
    (outcomes : Nat → RunOutcome) (alive : Bool)
    (h : outcomes 0 = RunOutcome.timedOut alive) :
    process_iso_loop legacyMode tc d p outcomes 0 3
      = (StepEv.attempt 0 (addJ tc legacyMode) :: StepEv.terminate ::
          (if alive then [StepEv.kill] else []), JobResult.timedOut) := by
  rw [show (3:Nat) = 2+1 from rfl]
  simp [process_iso_loop, h]

/-- Result of the retry loop when the first pass exits with return code
zero: success. -/
theorem process_iso_loop_success (legacyMode : Bool) (tc : String) (d p : Bool)
    (outcomes : Nat → RunOutcome) (sawJ : Bool)
    (h : outcomes 0 = RunOutcome.finished 0 sawJ) :
    process_iso_loop legacyMode tc d p outcomes 0 3
      = (StepEv.attempt 0 (addJ tc legacyMode) ::
          (if d && p then [StepEv.deleteSource] else []), JobResult.success) := by
  rw [show (3:Nat) = 2+1 from rfl]
  simp [process_iso_loop, h, legacy_branch_false]

/-- Result of the retry loop when the first pass raises an unexpected
exception: the job is skipped with no retry. -/
theorem process_iso_loop_raised (legacyMode : Bool) (tc : String) (d p : Bool)
    (outcomes : Nat → RunOutcome)
    (h : outcomes 0 = RunOutcome.raisedOther) :
    process_iso_loop legacyMode tc d p outcomes 0 3 = ([], JobResult.unexpectedSkip) := by
  rw [show (3:Nat) = 2+1 from rfl]
  simp [process_iso_loop, h]

/-! ### Helper lemmas about the watcher state -/

/-- Admission of a path already in the in-flight set touches neither the
queue nor the in-flight set. -/
theorem admitPath_inflight (s : SysState) (path : String) (now : ℚ)
    (hp : path ∈ s.processing) :
    (admitPath s path now).queue = s.queue
    ∧ (admitPath s path now).processing = s.processing := by
  simp [admitPath, hp]

/-- A sighting of a path already in the in-flight set touches neither the
queue nor the in-flight set. -/
theorem on_created_inflight (delay : ℚ) (s : SysState) (path : String)
    (isDirectory : Bool) (now : ℚ) (hp : path ∈ s.processing) :
    (on_created delay s path isDirectory now).queue = s.queue
    ∧ (on_created delay s path isDirectory now).processing = s.processing := by
  unfold on_created
  split
  · split
    · split
      · exact ⟨rfl, rfl⟩
      · exact admitPath_inflight s path now hp
    · exact admitPath_inflight s path now hp
  · exact ⟨rfl, rfl⟩

/-- Admission of any path preserves membership of an orphaned in-flight
path and keeps it off the queue. -/
theorem admitPath_orphan (s : SysState) (q p : String) (now : ℚ)
    (hp : p ∈ s.processing) (hq : p ∉ s.queue) :
    p ∈ (admitPath s q now).processing ∧ p ∉ (admitPath s q now).queue := by
  by_cases hmem : q ∈ s.processing
  · simp [admitPath, hmem, hp, hq]
  · have hne : p ≠ q := fun h => hmem (h ▸ hp)
    refine ⟨?_, ?_⟩
    · simp [admitPath, hmem, Finset.mem_insert, hp]
    · simp [admitPath, hmem, List.mem_append, hq, hne]

/-- A sighting preserves membership of an orphaned in-flight path and
keeps it off the queue. -/
theorem on_created_orphan (delay : ℚ) (s : SysState) (q p : String)
    (isDirectory : Bool) (now : ℚ) (hp : p ∈ s.processing) (hq : p ∉ s.queue) :
    p ∈ (on_created delay s q isDirectory now).processing
    ∧ p ∉ (on_created delay s q isDirectory now).queue := by
  unfold on_created
  split
  · split
    · split
      · exact ⟨hp, hq⟩
      · exact admitPath_orphan s q p now hp hq
    · exact admitPath_orphan s q p now hp hq
  · exact ⟨hp, hq⟩

/-- Each step of the orchestration core preserves membership of an
orphaned in-flight path (one that is in-flight but no longer queued) and
keeps it off the queue. -/
theorem sysStep_orphan (delay : ℚ) (s : SysState) (p : String) (e : SysEv)
    (hp : p ∈ s.processing) (hq : p ∉ s.queue) :
    p ∈ (sysStep delay s e).processing ∧ p ∉ (sysStep delay s e).queue := by
  cases e with
  | sighting q dir t => exact on_created_orphan delay s q p dir t hp hq
  | clearQueueEv => refine ⟨?_, ?_⟩ <;> simp [sysStep, clear_queue, hp]
  | procNext =>
    cases hqueue : s.queue with
    | nil =>
      have hstep : sysStep delay s SysEv.procNext = s := by simp [sysStep, hqueue]
      rw [hstep]; exact ⟨hp, hq⟩
    | cons h rest =>
      have hph : p ≠ h := by
        rintro rfl
        exact hq (hqueue ▸ List.mem_cons_self _ _)
      have hpr : p ∉ rest := fun hm => hq (hqueue ▸ List.mem_cons_of_mem _ hm)
      refine ⟨?_, ?_⟩ <;>
        simp [sysStep, hqueue, jobCleanup, Finset.mem_erase, hph, hp, hpr]

/-- Iterated version of the orphan preservation. -/
theorem sysRun_orphan (delay : ℚ) :
    ∀ (evs : List SysEv) (s : SysState), p ∈ s.processing → p ∉ s.queue →
      p ∈ (sysRun delay s evs).processing ∧ p ∉ (sysRun delay s evs).queue := by
  intro evs
  induction evs with
  | nil => intro s hp hq; exact ⟨hp, hq⟩
  | cons e es ih =>
    intro s hp hq
    obtain ⟨hp1, hq1⟩ := sysStep_orphan delay s p e hp hq
    exact ih _ hp1 hq1

/-- Admission preserves the uniqueness invariant. -/
theorem admitPath_inv (s : SysState) (q : String) (now : ℚ) (h : QueueInv s) :
    QueueInv (admitPath s q now) := by
  obtain ⟨hnd, hsub⟩ := h
  by_cases hmem : q ∈ s.processing
  · constructor
    · simpa [admitPath, hmem] using hnd
    · intro x hx
      simp [admitPath, hmem] at hx ⊢
      exact hsub x hx
  · constructor
    · have hqnotin : q ∉ s.queue := fun hin => hmem (hsub q hin)
      simp [admitPath, hmem, List.nodup_append, hnd, hqnotin]
    · intro x hx
      simp [admitPath, hmem] at hx ⊢
      rcases hx with hx | rfl
      · exact Or.inr (hsub x hx)
      · exact Or.inl rfl

/-- A sighting preserves the uniqueness invariant. -/
theorem on_created_inv (delay : ℚ) (s : SysState) (q : String)
    (isDirectory : Bool) (now : ℚ) (h : QueueInv s) :
    QueueInv (on_created delay s q isDirectory now) := by
  unfold on_created
  split
  · split
    · split
      · exact h
      · exact admitPath_inv s q now h
    · exact admitPath_inv s q now h
  · exact h

/-- Each step of the orchestration core preserves the uniqueness
invariant. -/
theorem sysStep_inv (delay : ℚ) (s : SysState) (e : SysEv) (h : QueueInv s) :
    QueueInv (sysStep delay s e) := by
  cases e with
  | sighting q dir t => exact on_created_inv delay s q dir t h
  | clearQueueEv => exact ⟨by simp [sysStep, clear_queue], by simp [sysStep, clear_queue]⟩
  | procNext =>
    obtain ⟨hnd, hsub⟩ := h
    cases hqueue : s.queue with
    | nil =>
      have hstep : sysStep delay s SysEv.procNext = s := by simp [sysStep, hqueue]
      rw [hstep]; exact ⟨hnd, hsub⟩
    | cons hd rest =>
      rw [hqueue] at hnd
      constructor
      · simpa [sysStep, hqueue, jobCleanup] using hnd.of_cons
      · intro x hx
        simp [sysStep, hqueue, jobCleanup] at hx ⊢
        refine ⟨?_, hsub x (hqueue ▸ List.mem_cons_of_mem _ hx)⟩
        rintro rfl
        exact (List.nodup_cons.mp hnd).1 hx

/-- Iterated version of the invariant preservation. -/
theorem sysRun_inv (delay : ℚ) :
    ∀ (evs : List SysEv) (s : SysState), QueueInv s → QueueInv (sysRun delay s evs) := by
  intro evs
  induction evs with
  | nil => intro s h; exact h
  | cons e es ih => intro s h; exact ih _ (sysStep_inv delay s e h)

/-! ### Helper lemmas about the coordinator -/

/-- Dequeue on a nonempty queue: the head is popped, the captured total is
the queue size, and the computed current index is always 1 in the
sequential model. -/
theorem dequeueIdx_cons (s : SysState) (h : String) (rest : List String)
    (hs : s.queue = h :: rest) :
    dequeueIdx s = some (h, 1, rest.length + 1, { s with queue := rest }) := by
  simp [dequeueIdx, hs]

/-- The coordinator acknowledges every queued item: a drain of the queue
produces exactly one report per queued path, whatever each attempt
outcomes are. -/
theorem process_queue_length (legacyMode : Bool) (tc : String) (d p u : Bool)
    (F : String → Nat → RunOutcome) :
    ∀ (q : List String) (s : SysState), s.queue = q →
      (process_queue legacyMode tc d p u F q.length s).1.length = q.length := by
  intro q
  induction q with
  | nil => intro s hs; simp [process_queue]
  | cons h rest ih =>
    intro s hs
    rw [List.length_cons]
    simp only [process_queue, dequeueIdx_cons s h rest hs]
    simpa using ih _ rfl

/-- The output state of one `process_iso` call keeps the queue of its
input state. -/
theorem process_iso_snd_queue (path : String) (legacyMode : Bool) (tc : String)
    (d p u : Bool) (outcomes : Nat → RunOutcome) (i t : Nat) (s : SysState) :
    (process_iso path legacyMode tc d p u outcomes i t s).2.queue = s.queue := rfl

/-- The upload flag of one `process_iso` report. -/
theorem process_iso_uploadFired (path : String) (legacyMode : Bool) (tc : String)
    (d p u : Bool) (outcomes : Nat → RunOutcome) (i t : Nat) (s : SysState) :
    (process_iso path legacyMode tc d p u outcomes i t s).1.uploadFired
      = (u && (i == t)) := rfl

/-- One unfolding step of the coordinator on a nonempty queue. -/
theorem process_queue_cons (legacyMode : Bool) (tc : String) (d p u : Bool)
    (F : String → Nat → RunOutcome) (fuel : Nat) (s : SysState)
    (h : String) (rest : List String) (hs : s.queue = h :: rest) :
    process_queue legacyMode tc d p u F (fuel+1) s
      = ((process_iso h legacyMode tc d p u (F h) 1 (rest.length+1)
            { s with queue := rest }).1 ::
          (process_queue legacyMode tc d p u F fuel
            (process_iso h legacyMode tc d p u (F h) 1 (rest.length+1)
              { s with queue := rest }).2).1,
         (process_queue legacyMode tc d p u F fuel
            (process_iso h legacyMode tc d p u (F h) 1 (rest.length+1)
              { s with queue := rest }).2).2) := by
  simp only [process_queue, dequeueIdx_cons s h rest hs]

/-- With FTP enabled and no concurrent admissions, the upload flag of a
queue drain is false on every job except the last, and true on the last. -/
theorem process_queue_upload_last (legacyMode : Bool) (tc : String) (d p : Bool)
    (F : String → Nat → RunOutcome) :
    ∀ (q : List String) (s : SysState), s.queue = q → q ≠ [] →
      ((process_queue legacyMode tc d p true F q.length s).1.map JobReport.uploadFired)
        = List.replicate (q.length - 1) false ++ [true] := by
  intro q
  induction q with
  | nil => intro s hs hne; exact absurd rfl hne
  | cons h rest ih =>
    intro s hs _
    rw [List.length_cons,
      process_queue_cons legacyMode tc d p true F rest.length s h rest hs]
    cases rest with
    | nil =>
      simp [process_queue, process_iso_uploadFired]
    | cons h2 rest2 =>
      rw [List.map_cons, ih _ (process_iso_snd_queue _ _ _ _ _ _ _ _ _ _) (by simp)]
      simp [process_iso_uploadFired, List.replicate_succ]

/-- With FTP disabled, no job of any drain fires the upload. -/
theorem process_queue_no_ftp (legacyMode : Bool) (tc : String) (d p : Bool)
    (F : String → Nat → RunOutcome) :
    ∀ fuel (s : SysState) r, r ∈ (process_queue legacyMode tc d p false F fuel s).1 →
      r.uploadFired = false := by
  intro fuel
  induction fuel with
  | zero => intro s r hr; simp [process_queue] at hr
  | succ n ih =>
    intro s r hr
    rcases hdq : dequeueIdx s with _ | ⟨q, idx, total, s1⟩
    · simp [process_queue, hdq] at hr
    · simp only [process_queue, hdq] at hr
      rcases List.mem_cons.mp hr with rfl | hr
      · simp [process_iso]
      · exact ih _ r hr

/-- The thread-count flag is in the built command exactly when `add_j`
holds, provided none of the three base arguments happens to be the literal
flag string. -/
theorem mem_j_buildCmd (bin iso out : String) (trim : Bool) (tc : String) (L : Bool)
    (hb : bin ≠ "-j") (hi : iso ≠ "-j") (ho : out ≠ "-j") :
    ("-j" ∈ buildCmd bin iso out trim tc L) ↔ addJ tc L = true := by
  have ht : ("-j" : String) ≠ "--trim" := by decide
  cases haj : addJ tc L with
  | true => simp [buildCmd, haj]
  | false =>
    have hb' := Ne.symm hb
    have hi' := Ne.symm hi
    have ho' := Ne.symm ho
    cases trim <;> simp [buildCmd, haj, hb', hi', ho', ht]

/-! ### Claim theorems -/

/-- C1. For every path, at most one job for that path is
queued-or-processing at any time: a sighting of a path already in the
in-flight set never enqueues (the queue and the in-flight set are left
unchanged), and the uniqueness invariant — the queue has no duplicate
paths and every queued path is in the in-flight set — is preserved by
every step and every run of the orchestration core. -/
theorem c1_unique_admission :
    (∀ (delay : ℚ) (s : SysState) (path : String) (isDirectory : Bool) (now : ℚ),
        path ∈ s.processing →
          (on_created delay s path isDirectory now).queue = s.queue
          ∧ (on_created delay s path isDirectory now).processing = s.processing)
    ∧ (∀ (delay : ℚ) (s : SysState) (e : SysEv), QueueInv s → QueueInv (sysStep delay s e))
    ∧ (∀ (delay : ℚ) (s : SysState) (evs : List SysEv),
        QueueInv s → QueueInv (sysRun delay s evs)) :=
  ⟨fun delay s path isDirectory now hp => on_created_inflight delay s path isDirectory now hp,
   fun delay s e h => sysStep_inv delay s e h,
   fun delay s evs h => sysRun_inv delay evs s h⟩

/-- Witness for C1 at a concrete state: a sighting of the in-flight path
"a.iso" leaves the queue unchanged, and a step of the core preserves the
invariant of a concrete invariant-satisfying state. -/
theorem c1_unique_admission_witness :
    (on_created 2 ⟨["a.iso"], {"a.iso"}, [], "None"⟩ "a.iso" false 10).queue = ["a.iso"]
    ∧ QueueInv (sysStep 2 ⟨["a.iso"], {"a.iso"}, [], "None"⟩ (SysEv.sighting "b.iso" false 10)) :=
  ⟨(c1_unique_admission.1 2 ⟨["a.iso"], {"a.iso"}, [], "None"⟩ "a.iso" false 10 (by decide)).1,
   c1_unique_admission.2.1 2 ⟨["a.iso"], {"a.iso"}, [], "None"⟩
     (SysEv.sighting "b.iso" false 10) ⟨by decide, by decide⟩⟩

/-- C2 counterexample. With the non-legacy tool "windows-1.7.0" and the
configured thread count "0" the flag is appended to the command although
the numeric value of the thread count is 0, which is not positive: the
claim that the flag is appended only for a positive thread count fails at
this input. -/
theorem c2_counterexample :
    ¬ (("-j" ∈ buildCmd "iso2god/windows-1.7.0" "game.iso" "out" false "0"
          (is_legacy_version "windows-1.7.0")) →
        ∃ n, digitStrVal "0" = some n ∧ 0 < n) := by
  intro h
  obtain ⟨n, hn, hpos⟩ := h (by decide)
  rw [show digitStrVal "0" = some 0 from by decide] at hn
  obtain rfl : (0 : Nat) = n := Option.some.inj hn
  exact absurd hpos (lt_irrefl 0)

/-- C2 (amended). The thread-count flag is appended exactly when the
configured thread count is a nonempty digit string (so possibly zero) and
the tool is not in legacy mode; legacy mode holds exactly when the version
triple parsed from the tool identifier (a dash followed by
MAJOR.MINOR.PATCH) is lexicographically at most (1, 6, 0), and is off when
no such triple occurs; consequently a legacy job never receives the flag. -/
theorem c2_thread_flag (bin iso out : String) (trim : Bool) (tc nm : String)
    (hb : bin ≠ "-j") (hi : iso ≠ "-j") (ho : out ≠ "-j") :
    ("-j" ∈ buildCmd bin iso out trim tc (is_legacy_version nm)
        ↔ isDigitStr tc = true ∧ is_legacy_version nm = false)
    ∧ (∀ v, findVersion nm.data = some v →
        (is_legacy_version nm = true ↔ tupleLE v (1, 6, 0) = true))
    ∧ (findVersion nm.data = none → is_legacy_version nm = false) := by
  refine ⟨?_, ?_, ?_⟩
  · rw [mem_j_buildCmd bin iso out trim tc _ hb hi ho]
    simp [addJ, Bool.and_eq_true, Bool.not_eq_true']
  · intro v hv
    simp [is_legacy_version, hv]
  · intro hv
    simp [is_legacy_version, hv]

/-- Witness for C2 at the legacy tool "windows-1.5.2" with thread count
"4": the flag is not in the command. -/
theorem c2_thread_flag_witness :
    "-j" ∉ buildCmd "iso2god/windows-1.5.2" "game.iso" "out" false "4"
      (is_legacy_version "windows-1.5.2") := by
  intro hm
  have h := (c2_thread_flag "iso2god/windows-1.5.2" "game.iso" "out" false "4" "windows-1.5.2"
    (by decide) (by decide) (by decide)).1
  have h2 := (h.mp hm).2
  rw [show is_legacy_version "windows-1.5.2" = true by decide] at h2
  exact Bool.noConfusion h2

/-- C3. The immediate legacy retry described by the spec is unreachable
dead code: its guard (gui.py line 759) conjoins legacy mode with `add_j`,
but `add_j` (line 675) already conjoins the negation of legacy mode, so
the guard is identically false, the retry event occurs in no trace of the
retry loop, and at the failing input — legacy binary "windows-1.5.2",
thread count "4" — the flag is not even sent. -/
theorem c3_legacy_retry_dead_code :
    (∀ (legacyMode sawJ : Bool) (tc : String),
        (legacyMode && errorDetectedJ legacyMode sawJ && addJ tc legacyMode) = false)
    ∧ (∀ (legacyMode : Bool) (tc : String) (d p : Bool) (outcomes : Nat → RunOutcome)
        (fuel t : Nat),
        StepEv.legacyRetry ∉ (process_iso_loop legacyMode tc d p outcomes t fuel).1)
    ∧ is_legacy_version "windows-1.5.2" = true
    ∧ addJ "4" (is_legacy_version "windows-1.5.2") = false :=
  ⟨legacy_branch_false,
   fun legacyMode tc d p outcomes fuel t => legacyRetry_not_mem legacyMode tc d p outcomes fuel t,
   by decide, by decide⟩

/-- C4. A job whose every attempt exits with a nonzero return code makes
exactly three attempts, waits the fixed 120-second delay before each of
the two re-attempts, and is then abandoned as a fatal failure. -/
theorem c4_nonzero_retry_cap (legacyMode : Bool) (tc : String) (deleteIso isProc : Bool)
    (rc : Nat → Int) (h : ∀ n, rc n ≠ 0) :
    process_iso_loop legacyMode tc deleteIso isProc
        (fun n => RunOutcome.finished (rc n) false) 0 maxRetries
      = ([StepEv.attempt 0 (addJ tc legacyMode), StepEv.sleepDelay 120,
          StepEv.attempt 1 (addJ tc legacyMode), StepEv.sleepDelay 120,
          StepEv.attempt 2 (addJ tc legacyMode)], JobResult.fatalExit) :=
  process_iso_loop_all_nonzero legacyMode tc deleteIso isProc rc h

/-- Witness for C4: every attempt exits with code 1. -/
theorem c4_nonzero_retry_cap_witness :
    process_iso_loop false "4" true true (fun _ => RunOutcome.finished 1 false) 0 maxRetries
      = ([StepEv.attempt 0 (addJ "4" false), StepEv.sleepDelay 120,
          StepEv.attempt 1 (addJ "4" false), StepEv.sleepDelay 120,
          StepEv.attempt 2 (addJ "4" false)], JobResult.fatalExit) :=
  c4_nonzero_retry_cap false "4" true true (fun _ => 1) (by intro n; norm_num)

/-- C5. A job whose first attempt exceeds the configured timeout is sent
the graceful terminate and then the kill exactly when still alive, makes
no further attempt, never deletes the source file whatever the
delete-source setting, and the timeout fires exactly when the configured
minutes are positive and the elapsed seconds exceed minutes times 60. -/
theorem c5_timeout_no_retry (legacyMode : Bool) (tc : String) (deleteIso isProc : Bool)
    (outcomes : Nat → RunOutcome) (alive : Bool)
    (h : outcomes 0 = RunOutcome.timedOut alive) :
    process_iso_loop legacyMode tc deleteIso isProc outcomes 0 maxRetries
      = (StepEv.attempt 0 (addJ tc legacyMode) :: StepEv.terminate ::
          (if alive then [StepEv.kill] else []), JobResult.timedOut)
    ∧ StepEv.deleteSource ∉ (process_iso_loop legacyMode tc deleteIso isProc outcomes 0 maxRetries).1
    ∧ (∀ m e : ℚ, timeoutFires (timeoutSecondsOf m) e = true ↔ 0 < m ∧ m * 60 < e) := by
  have h1 := process_iso_loop_timeout legacyMode tc deleteIso isProc outcomes alive h
  refine ⟨h1, ?_, ?_⟩
  · rw [show maxRetries = 3 from rfl, h1]
    cases alive <;> simp
  · intro m e
    unfold timeoutFires timeoutSecondsOf
    by_cases hm : 0 < m <;> simp [hm]

/-- Witness for C5: the first attempt times out with the process still
alive after the terminate, with source deletion enabled. -/
theorem c5_timeout_no_retry_witness :
    process_iso_loop false "4" true true (fun _ => RunOutcome.timedOut true) 0 maxRetries
      = ([StepEv.attempt 0 (addJ "4" false), StepEv.terminate, StepEv.kill],
         JobResult.timedOut)
    ∧ StepEv.deleteSource ∉
        (process_iso_loop false "4" true true (fun _ => RunOutcome.timedOut true) 0 maxRetries).1 := by
  have h := c5_timeout_no_retry false "4" true true (fun _ => RunOutcome.timedOut true) true rfl
  exact ⟨by simpa using h.1, h.2.1⟩

/-- C6. A sighting of an iso path within the scan-delay window of the last
recorded admission attempt is dropped with the whole state (queue,
in-flight set, debounce table) unchanged; a sighting outside the window,
or of a path with no recorded attempt, records the new timestamp and
appends the path to the queue exactly when it is not in-flight. -/
theorem c6_debounce (delay : ℚ) (s : SysState) (p : String) (now : ℚ)
    (hiso : strEndsWith (strLower p) ".iso" = true) :
    (∀ t, s.lastEventTime.lookup p = some t → now - t < delay →
        on_created delay s p false now = s)
    ∧ (∀ t, s.lastEventTime.lookup p = some t → ¬ (now - t < delay) →
        on_created delay s p false now = admitPath s p now)
    ∧ (s.lastEventTime.lookup p = none →
        on_created delay s p false now = admitPath s p now)
    ∧ (admitPath s p now).lastEventTime.lookup p = some now
    ∧ (admitPath s p now).queue = (if p ∈ s.processing then s.queue else s.queue ++ [p])
    ∧ (admitPath s p now).processing
        = (if p ∈ s.processing then s.processing else insert p s.processing) := by
  refine ⟨?_, ?_, ?_, ?_, ?_, ?_⟩
  · intro t ht hlt
    simp [on_created, hiso, ht, hlt]
  · intro t ht hge
    simp [on_created, hiso, ht, hge]
  · intro hn
    simp [on_created, hiso, hn]
  · by_cases hmem : p ∈ s.processing <;>
      simp [admitPath, hmem, setTime, List.lookup]
  · by_cases hmem : p ∈ s.processing <;> simp [admitPath, hmem]
  · by_cases hmem : p ∈ s.processing <;> simp [admitPath, hmem]

/-- Witness for C6: with a recorded attempt at time 0 and scan delay 2, a
sighting at time 1 changes nothing, and admission at time 5 enqueues the
path not in-flight. -/
theorem c6_debounce_witness :
    on_created 2 ⟨[], ∅, [("a.iso", 0)], "None"⟩ "a.iso" false 1
      = ⟨[], ∅, [("a.iso", 0)], "None"⟩
    ∧ (admitPath ⟨[], ∅, [("a.iso", 0)], "None"⟩ "a.iso" 5).queue = ["a.iso"] := by
  constructor
  · exact (c6_debounce 2 ⟨[], ∅, [("a.iso", 0)], "None"⟩ "a.iso" 1 (by decide)).1
      0 rfl (by norm_num)
  · have h := (c6_debounce 2 ⟨[], ∅, [("a.iso", 0)], "None"⟩ "a.iso" 5 (by decide)).2.2.2.2.1
    simpa using h

/-- C7. The upload stage fires only with FTP enabled and only on the job
whose captured index equals the captured total, which in a drain with no
concurrent admissions is exactly the last job: the upload flags of a drain
of a nonempty queue are false everywhere except on the last job, and with
FTP disabled they are false everywhere. -/
theorem c7_upload_after_last (legacyMode : Bool) (tc : String) (d p : Bool)
    (F : String → Nat → RunOutcome) :
    (∀ s : SysState, s.queue ≠ [] →
        ((process_queue legacyMode tc d p true F s.queue.length s).1.map JobReport.uploadFired)
          = List.replicate (s.queue.length - 1) false ++ [true])
    ∧ (∀ fuel (s : SysState) r,
        r ∈ (process_queue legacyMode tc d p false F fuel s).1 → r.uploadFired = false) :=
  ⟨fun s hne => process_queue_upload_last legacyMode tc d p F s.queue s rfl hne,
   process_queue_no_ftp legacyMode tc d p F⟩

/-- Witness for C7: two queued jobs with FTP enabled fire the upload
exactly once, after the second job and not after the first. -/
theorem c7_upload_after_last_witness :
    ((process_queue false "4" true true true (fun _ _ => RunOutcome.finished 0 false) 2
        ⟨["a.iso", "b.iso"], {"a.iso", "b.iso"}, [], "None"⟩).1.map JobReport.uploadFired)
      = [false, true] := by
  have h := (c7_upload_after_last false "4" true true
      (fun _ _ => RunOutcome.finished 0 false)).1
    ⟨["a.iso", "b.iso"], {"a.iso", "b.iso"}, [], "None"⟩ (by decide)
  simpa using h

/-- C8. The file-transfer session ignores the configured host field: the
issued commands are identical for any two configured hosts, and at the
concrete configuration with host field "10.0.0.5" the session connects to
the hardcoded "192.168.1.28" (with default port 21), logs in with the
configured credentials, and mirrors the tree under the remote root built
from the drive name, with a change up after the subdirectory. -/
theorem c8_ftp_hardcoded_host :
    (∀ ip1 ip2 portF u pw drv t,
        send_over_ftp ip1 portF u pw drv t = send_over_ftp ip2 portF u pw drv t)
    ∧ send_over_ftp "10.0.0.5" "Port (default: 21)" "xbox" "xbox"
        "Drive Folder (default: Hdd1)" [FSEntry.dir "GameTitle" [FSEntry.file "part0"]]
      = some [FtpOp.connect "192.168.1.28" 21, FtpOp.login "xbox" "xbox",
              FtpOp.mkd "Hdd1/Content/0000000000000000",
              FtpOp.cwd "Hdd1/Content/0000000000000000",
              FtpOp.mkd "GameTitle", FtpOp.cwd "GameTitle",
              FtpOp.stor "part0", FtpOp.cwd ".."]
    ∧ ("10.0.0.5" : String) ≠ "192.168.1.28" := by
  refine ⟨fun ip1 ip2 portF u pw drv t => rfl, ?_, by decide⟩
  simp [send_over_ftp, connectPort, remoteRoot, upload_folder, uploadEntries]

/-- C9. The cleanup phase runs on every outcome: after any `process_iso`
call the game-title display reads "None", the in-flight entry of the
processed path is discharged, the queue is not touched by the job itself,
and the item is acknowledged; the four outcome classes map to their
terminal results; and a drain of the queue produces one report per queued
path whatever the outcomes, so no job outcome stops the
coordinator. -/
theorem c9_cleanup_unconditional (path : String) (legacyMode : Bool) (tc : String)
    (deleteIso isProc useFtp : Bool) (outcomes : Nat → RunOutcome)
    (currentIndex totalCount : Nat) (s : SysState) :
    ((process_iso path legacyMode tc deleteIso isProc useFtp outcomes
        currentIndex totalCount s).2.title = "None")
    ∧ ((process_iso path legacyMode tc deleteIso isProc useFtp outcomes
        currentIndex totalCount s).2.processing = s.processing.erase path)
    ∧ ((process_iso path legacyMode tc deleteIso isProc useFtp outcomes
        currentIndex totalCount s).2.queue = s.queue)
    ∧ ((process_iso path legacyMode tc deleteIso isProc useFtp outcomes
        currentIndex totalCount s).1.acked = true)
    ∧ (∀ sawJ, outcomes 0 = RunOutcome.finished 0 sawJ →
        (process_iso path legacyMode tc deleteIso isProc useFtp outcomes
          currentIndex totalCount s).1.result = JobResult.success)
    ∧ (∀ rc : Nat → Int, outcomes = (fun n => RunOutcome.finished (rc n) false) →
        (∀ n, rc n ≠ 0) →
        (process_iso path legacyMode tc deleteIso isProc useFtp outcomes
          currentIndex totalCount s).1.result = JobResult.fatalExit)
    ∧ (∀ alive, outcomes 0 = RunOutcome.timedOut alive →
        (process_iso path legacyMode tc deleteIso isProc useFtp outcomes
          currentIndex totalCount s).1.result = JobResult.timedOut)
    ∧ (outcomes 0 = RunOutcome.raisedOther →
        (process_iso path legacyMode tc deleteIso isProc useFtp outcomes
          currentIndex totalCount s).1.result = JobResult.unexpectedSkip)
    ∧ (∀ F : String → Nat → RunOutcome,
        (process_queue legacyMode tc deleteIso isProc useFtp F s.queue.length s).1.length
          = s.queue.length) := by
  refine ⟨rfl, rfl, rfl, rfl, ?_, ?_, ?_, ?_, ?_⟩
  · intro sawJ h
    simp [process_iso, maxRetries,
      process_iso_loop_success legacyMode tc deleteIso isProc outcomes sawJ h]
  · intro rc hfo h
    subst hfo
    simp [process_iso, maxRetries,
      process_iso_loop_all_nonzero legacyMode tc deleteIso isProc rc h]
  · intro alive h
    simp [process_iso, maxRetries,
      process_iso_loop_timeout legacyMode tc deleteIso isProc outcomes alive h]
  · intro h
    simp [process_iso, maxRetries,
      process_iso_loop_raised legacyMode tc deleteIso isProc outcomes h]
  · intro F
    exact process_queue_length legacyMode tc deleteIso isProc useFtp F s.queue s rfl

/-- Witness for C9: a job that raises an unexpected exception still resets
the title, discharges the in-flight entry, and ends as a skip. -/
theorem c9_cleanup_unconditional_witness :
    ((process_iso "d/a.iso" false "4" true true false (fun _ => RunOutcome.raisedOther) 1 1
        ⟨[], {"d/a.iso"}, [], "a"⟩).2.title = "None")
    ∧ ((process_iso "d/a.iso" false "4" true true false (fun _ => RunOutcome.raisedOther) 1 1
        ⟨[], {"d/a.iso"}, [], "a"⟩).2.processing = ∅)
    ∧ ((process_iso "d/a.iso" false "4" true true false (fun _ => RunOutcome.raisedOther) 1 1
        ⟨[], {"d/a.iso"}, [], "a"⟩).1.result = JobResult.unexpectedSkip) := by
  have h := c9_cleanup_unconditional "d/a.iso" false "4" true true false
    (fun _ => RunOutcome.raisedOther) 1 1 ⟨[], {"d/a.iso"}, [], "a"⟩
  refine ⟨h.1, ?_, h.2.2.2.2.2.2.2.1 rfl⟩
  rw [h.2.1]
  decide

/-- C10. A path that is in the in-flight set but no longer queued (as
after a clear of the queue) stays in the in-flight set and off the queue
under every further sequence of sightings, queue clears and job
completions, and a later sighting of it never re-enqueues it. -/
theorem c10_orphaned_inflight (delay : ℚ) (s : SysState) (p : String) (evs : List SysEv)
    (hp : p ∈ s.processing) (hq : p ∉ s.queue) :
    p ∈ (sysRun delay s evs).processing
    ∧ p ∉ (sysRun delay s evs).queue
    ∧ ∀ (isDirectory : Bool) (now : ℚ),
        (on_created delay (sysRun delay s evs) p isDirectory now).queue
          = (sysRun delay s evs).queue := by
  obtain ⟨h1, h2⟩ := sysRun_orphan delay evs s hp hq
  exact ⟨h1, h2, fun isDirectory now => (on_created_inflight delay _ p isDirectory now h1).1⟩

/-- Witness for C10: after clearing the queue behind the admitted path
"g.iso", a fresh sighting and a job completion leave it in-flight and
never re-enqueue it. -/
theorem c10_orphaned_inflight_witness :
    "g.iso" ∈ (sysRun 2 ⟨[], {"g.iso"}, [("g.iso", 0)], "None"⟩
        [SysEv.sighting "g.iso" false 10, SysEv.procNext]).processing
    ∧ "g.iso" ∉ (sysRun 2 ⟨[], {"g.iso"}, [("g.iso", 0)], "None"⟩
        [SysEv.sighting "g.iso" false 10, SysEv.procNext]).queue :=
  ⟨(c10_orphaned_inflight 2 ⟨[], {"g.iso"}, [("g.iso", 0)], "None"⟩ "g.iso"
      [SysEv.sighting "g.iso" false 10, SysEv.procNext] (by decide) (by decide)).1,
   (c10_orphaned_inflight 2 ⟨[], {"g.iso"}, [("g.iso", 0)], "None"⟩ "g.iso"
      [SysEv.sighting "g.iso" false 10, SysEv.procNext] (by decide) (by decide)).2.1⟩

end Iso2God
